import Mathlib

/-!
Verification development for the tractmapper tract-coordinate pipeline.

Shallow embedding of `get_subject_tract_coordinates.py` (and the shape of the
`parse_mrml.MapTracts` output it consumes).  Python dicts are modelled as
association lists whose order stands for the unspecified `iteritems`
iteration order; numpy streamline arrays are modelled as lists of integer
3D points (only exact pointwise equality of coordinates matters to the
pipeline); exceptions are modelled with `Except`.
-/

namespace Tractmapper

/-- One 3D point of a streamline. Coordinates are modelled as integers:
the pipeline only ever compares coordinates for exact equality or maps a
per-point transform over them, so the carrier type is irrelevant. -/
abbrev Point := Int × Int × Int

/-- Streamline: an ordered sequence of 3D points (a numpy array of shape
(n, 3) in the source). `np.array_equal` on two such arrays (same shape and
same values) is exactly equality of the corresponding lists. -/
abbrev Streamline := List Point

/-- ClusterSet as consumed by `match_fibers_to_clusters`: the Python dict
`{cluster_id: [streamlines]}` (built by `convert_clusters_to_streams`),
modelled as an association list; its order stands for the dict's
unspecified `iteritems` iteration order. -/
abbrev ClusterSet := List (String × List Streamline)

/-- Error raised by `[...].index(True)` when `True` is not in the list: a
`ValueError` with the constant message, carrying no further data
(in particular, not the fiber index). -/
inductive MatchErr
  | valueError
  deriving DecidableEq

/-- Flattening loop of `match_fibers_to_clusters` (source lines 293-299):
for each `(key, cluster)` of the dict, every `cluster_stream` is appended
to `cluster_streams_flat` and its `key` to `cluster_labels_flat`; the two
parallel arrays are fused here into one list of pairs. -/
def flatten_clusters (cluster_streams : ClusterSet) : List (Streamline × String) :=
  cluster_streams.flatMap (fun kc => kc.2.map (fun s => (s, kc.1)))

/-- Matching loop of `match_fibers_to_clusters` (source lines 304-309): for
each fiber stream, `[np.array_equal(stream, cs) for cs in flat].index(True)`
finds the index of the FIRST flattened cluster stream that is pointwise
identical, and the fiber receives the label at that index; if no cluster
stream is equal, `.index(True)` raises `ValueError`, aborting the call. -/
def match_flat (flat : List (Streamline × String)) :
    List Streamline → Except MatchErr (List String)
  | [] => .ok []
  | stream :: rest =>
    match flat.find? (fun p => p.1 == stream) with
    | none => .error .valueError
    | some p => (match_flat flat rest).map (fun ls => p.2 :: ls)

/-- `match_fibers_to_clusters(fiber_streams, cluster_streams)` (source
lines 287-318): flatten the cluster dict, then match each fiber stream to
the label of its first pointwise-identical flattened cluster stream. -/
def match_fibers_to_clusters (fiber_streams : List Streamline)
    (cluster_streams : ClusterSet) : Except MatchErr (List String) :=
  match_flat (flatten_clusters cluster_streams) fiber_streams

/-- TractHierarchy as produced by `parse_mrml.MapTracts`: a dict from tract
name to a list of (cluster name, cluster file) pairs, modelled as an
association list. -/
abbrev TractMap := List (String × List (String × String))

/-- Inverted index built by `map_clusters_to_tracts` (source lines
352-358): `for tract in tracts: for cluster in [v[0] for v in
tract_map[tract]]: cluster_map[cluster] = tract`.  Dict assignment: a later
assignment to the same key overwrites an earlier one. -/
def build_cluster_map (tract_map : TractMap) : String → Option String :=
  tract_map.foldl
    (fun acc tc =>
      tc.2.foldl (fun acc2 cf => fun c => if c = cf.1 then some tc.1 else acc2 c) acc)
    (fun _ => none)

/-- Relabelling loop of `map_clusters_to_tracts` (source lines 360-361):
`cluster_list[i] = cluster_map[cluster_list[i]]`.  Each element is read
before being overwritten, so the final contents are the element-wise image
under the inverted index; a missing key raises `KeyError(cluster)` at the
first offending element, modelled as `.error` carrying that label. -/
def map_labels (cluster_map : String → Option String) :
    List String → Except String (List String)
  | [] => .ok []
  | c :: rest =>
    match cluster_map c with
    | none => .error c
    | some t => (map_labels cluster_map rest).map (fun ls => t :: ls)

/-- `map_clusters_to_tracts(cluster_list, tract_map)` (source lines
345-363), as the value it returns on success or the KeyError it raises. -/
def map_clusters_to_tracts (cluster_list : List String) (tract_map : TractMap) :
    Except String (List String) :=
  map_labels (build_cluster_map tract_map) cluster_list

/-- Address of a Python list object in the heap model. -/
abbrev Addr := Nat

/-- Heap mapping each list address to the current contents of that list. -/
abbrev Heap := Addr → List String

/-- Stateful reading of `map_clusters_to_tracts` (source lines 345-363):
the caller passes a reference `addr` to its cluster-label list; the loop
overwrites the referenced list's cells in place (`cluster_list[i] = ...`)
and line 363 `return(cluster_list)` returns the very same reference.
Explicit state passing: the result is (returned reference, updated heap). -/
def map_clusters_to_tracts_heap (addr : Addr) (tract_map : TractMap) (h : Heap) :
    Except String (Addr × Heap) :=
  match map_labels (build_cluster_map tract_map) (h addr) with
  | .error e => .error e
  | .ok newContents => .ok (addr, fun a => if a = addr then newContents else h a)

/-- Errors of `get_stream_ends`: the `assert` at source line 326, or the
IndexError from `streamlines[i][0]` / `streamlines[i][-1]` on a zero-point
streamline at source lines 331-332. -/
inductive EndsErr
  | assertionError
  | indexError
  deriving DecidableEq

/-- TractEndpoints: the dict from tract name to its `starts` and `ends`
point lists, modelled as an association list. -/
abbrev TractEnds := List (String × (List Point × List Point))

/-- Body of the try/except in `get_stream_ends` (source lines 334-341):
append the start and end coordinates to the tract's entry, creating the
entry (at dict insertion order, i.e. at the back) on `KeyError`. -/
def add_end (t : String) (s e : Point) : TractEnds → TractEnds
  | [] => [(t, ([s], [e]))]
  | (k, (ss, es)) :: rest =>
    if k = t then (k, (ss ++ [s], es ++ [e])) :: rest
    else (k, (ss, es)) :: add_end t s e rest

/-- Main loop of `get_stream_ends` (source lines 329-341): for each
(stream, label) pair in order, take `stream[0]` and `stream[-1]` and bucket
them under the label; indexing a zero-point stream raises IndexError. -/
def ends_loop : List (Streamline × String) → TractEnds → Except EndsErr TractEnds
  | [], acc => .ok acc
  | ([], _) :: _, _ => .error .indexError
  | (p :: ps, t) :: rest, acc => ends_loop rest (add_end t p (ps.getLastD p) acc)

/-- `get_stream_ends(streamlines, tractMap)` (source lines 321-342):
`assert count == len(streamlines)` runs before the loop; then each stream's
endpoints are bucketed under its tract label. -/
def get_stream_ends (streamlines : List Streamline) (tractMap : List String) :
    Except EndsErr TractEnds :=
  if tractMap.length = streamlines.length then
    ends_loop (streamlines.zip tractMap) []
  else .error .assertionError

/-- `convert_mm_to_voxels(coords, anat)` (source lines 366-383): applies
`nib.affines.apply_affine(npl.inv(affine), pts)` to every `starts` and
`ends` list of every tract.  `apply_affine` transforms each point
independently, so it is the `List.map` of a per-point transform `f`; the
claims about this function concern structure, not the affine arithmetic,
so `f` is a parameter standing for the inverse-affine point map. -/
def convert_mm_to_voxels (f : Point → Point) (coords : TractEnds) : TractEnds :=
  coords.map (fun kv => (kv.1, (kv.2.1.map f, kv.2.2.map f)))

/-- NameError raised when `main` evaluates the never-assigned local
`tract_ends_voxels`. -/
inductive PyErr
  | nameError
  deriving DecidableEq

/-- Tail of `main` (source lines 468-475): `tract_ends_voxels` is assigned
only inside `if subject_anat:`, yet `return json.dumps(tract_ends_voxels)`
is unconditional; referencing the unassigned local raises `NameError` when
no subject anatomy image was supplied.  The anatomy image is modelled by
the per-point inverse-affine transform it induces; the result is the
emitted document (before json serialisation). -/
def main_emit (tract_ends : TractEnds) (subject_anat : Option (Point → Point)) :
    Except PyErr TractEnds :=
  match subject_anat with
  | some f => .ok (convert_mm_to_voxels f tract_ends)
  | none => .error .nameError

/-- Conversion and extraction actions performed by `get_streams_from_file`:
the pointset converter (`convert_vtp_to_vtk`), the trajectory converter
(`convert_vtk_to_trk`), and streamline extraction from a .trk file. -/
inductive Step
  | convertVtpToVtk
  | convertVtkToTrk
  | extractTrk
  deriving DecidableEq

/-- Failures of `get_streams_from_file` before any extraction:
`missingAnatomy` is the `sys.exit` at source lines 200-203 (.vtp input with
no anatomy file); `nameErrorTempfile` is source line 213, which calls
`tempfile.mkdtemp()` although the module imports `tempdir`, never
`tempfile`, so the lookup raises `NameError`. -/
inductive FileErr
  | missingAnatomy
  | nameErrorTempfile
  deriving DecidableEq

/-- `get_most_advanced_file(filename)` (source lines 176-186): checks the
basename against the extensions .trk, .vtk, .vtp in that order and returns
the first file that exists, else None.  `fs ext` models
`os.path.exists(basename + ext)`. -/
def get_most_advanced_file (fs : String → Bool) : Option String :=
  if fs ".trk" then some ".trk"
  else if fs ".vtk" then some ".vtk"
  else if fs ".vtp" then some ".vtp"
  else none

/-- `get_streams_from_file(fName, anatFile, outDir)` (source lines
188-232), as the sequence of external steps it performs or the error that
aborts it.  Branch by branch:
the `.vtp` branch requires `anatFile` (else `sys.exit`) and sets both
conversion flags; the `.vtk` branch sets only `convert_to_trk` and has NO
anatomy check; `.trk` sets no flags; any other extension only logs an
error and continues.  If a conversion flag is set and `outDir` is absent,
line 213 raises `NameError` (see `FileErr.nameErrorTempfile`).  Otherwise
the enabled conversions run in order, then streamlines are extracted. -/
def get_streams_from_file (ext : String) (anatFile : Option String)
    (outDir : Option String) : Except FileErr (List Step) :=
  if ext = ".vtp" ∧ anatFile = none then .error .missingAnatomy
  else
    if (ext = ".vtp" ∨ (ext = ".vtp" ∨ ext = ".vtk")) ∧ outDir = none then
      .error .nameErrorTempfile
    else
      .ok ((if ext = ".vtp" then [Step.convertVtpToVtk] else []) ++
           (if ext = ".vtp" ∨ ext = ".vtk" then [Step.convertVtkToTrk] else []) ++
           [Step.extractTrk])

/-- Sample streamline used in concrete scenarios. -/
def S1 : Streamline := [(0, 0, 0), (1, 0, 0)]

/-- Sample streamline used in concrete scenarios. -/
def S2 : Streamline := [(0, 1, 0), (1, 1, 0)]

/-- Sample streamline used in concrete scenarios. -/
def S3 : Streamline := [(0, 0, 1), (1, 0, 1)]

/-- Sample streamline with no counterpart in any sample cluster. -/
def S9 : Streamline := [(9, 9, 9)]

/-- C5: with hierarchy A owning clusters c1 and c2, B owning c3, cluster
streamlines c1 = [S1], c2 = [S2], c3 = [S3], and raw atlas order
[S2, S3, S1], matching returns [c2, c3, c1] and resolving those labels
through the hierarchy returns [A, B, A]. -/
theorem scenario_match_resolve :
    match_fibers_to_clusters [S2, S3, S1]
        [("c1", [S1]), ("c2", [S2]), ("c3", [S3])] = .ok ["c2", "c3", "c1"] ∧
    map_clusters_to_tracts ["c2", "c3", "c1"]
        [("A", [("c1", "f1"), ("c2", "f2")]), ("B", [("c3", "f3")])] =
      .ok ["A", "B", "A"] := by
  exact ⟨rfl, rfl⟩

/-- C3: contrary to the claim, when no subject anatomy image is supplied
the pipeline emits nothing — `tract_ends_voxels` is assigned only inside
`if subject_anat:` and the unconditional return of it raises `NameError`;
with an anatomy image the voxel-converted document is emitted. -/
theorem main_no_anat_raises (tract_ends : TractEnds) :
    main_emit tract_ends none = .error .nameError := rfl

/-- C4 counterexample: a pointset-converted (.vtk) asset with no anatomy
reference does not fail with the missing-anatomy error; ensuring trajectory
format proceeds to invoke the trajectory converter. -/
theorem vtk_no_anat_invokes_converter :
    get_streams_from_file ".vtk" none (some "wd") =
      .ok [Step.convertVtkToTrk, Step.extractTrk] ∧
    get_streams_from_file ".vtk" none (some "wd") ≠
      Except.error FileErr.missingAnatomy := by
  refine ⟨rfl, fun h => ?_⟩
  rw [show get_streams_from_file ".vtk" none (some "wd") =
        .ok [Step.convertVtkToTrk, Step.extractTrk] from rfl] at h
  exact Except.noConfusion h

/-- C4 (amended): the missing-anatomy guard runs only in the raw-pointset
(.vtp) branch of `get_streams_from_file`; an intermediate pointset (.vtk)
asset without an anatomy reference does not trigger it — the trajectory
converter is invoked anyway. -/
theorem vtk_no_anatomy_guard (outDir : Option String) (wd : String) :
    get_streams_from_file ".vtp" none outDir = .error .missingAnatomy ∧
    get_streams_from_file ".vtk" none (some wd) =
      .ok [Step.convertVtkToTrk, Step.extractTrk] := by
  exact ⟨rfl, rfl⟩

/-- Helper: if some fiber in the list has no pointwise-identical
counterpart among the flattened cluster streams, the matching loop raises
the ValueError of `.index(True)`. -/
lemma match_flat_error (flat : List (Streamline × String)) :
    ∀ fibers : List Streamline, (∃ f ∈ fibers, ∀ p ∈ flat, p.1 ≠ f) →
      match_flat flat fibers = .error .valueError := by
  intro fibers
  induction fibers with
  | nil => rintro ⟨f, hf, -⟩; cases hf
  | cons g rest ih =>
    rintro ⟨f, hf, hnone⟩
    cases hfind : flat.find? (fun p => p.1 == g) with
    | none => simp only [match_flat, hfind]
    | some p =>
      have hpm : p ∈ flat := List.mem_of_find?_eq_some hfind
      have hpg : p.1 = g := by simpa using List.find?_some hfind
      have hfrest : f ∈ rest := by
        rcases List.mem_cons.mp hf with rfl | hr
        · exact absurd (hpg.trans rfl) (hnone p hpm)
        · exact hr
      have herr := ih ⟨f, hfrest, hnone⟩
      simp only [match_flat, hfind, herr, Except.map]

/-- C1 counterexample: two calls whose offending fiber sits at different
indices (0 in the first call, 1 in the second) return the very same error
value, so the raised error cannot carry the offending index.  The code's
failure is the constant `ValueError` of `.index(True)`, not an
index-carrying UnmatchedStreamlineError. -/
theorem match_error_carries_no_index :
    match_fibers_to_clusters [S9] [("c1", [S1])] =
      match_fibers_to_clusters [S1, S9] [("c1", [S1])] ∧
    match_fibers_to_clusters [S9] [("c1", [S1])] = .error .valueError := by
  exact ⟨rfl, rfl⟩

/-- C1 (amended): if some unregistered streamline has no pointwise-identical
counterpart among the flattened cluster streamlines, the whole call fails
with the (index-free) ValueError — it never silently skips that streamline
or assigns it a default label. -/
theorem match_unmatched_fails (fiber_streams : List Streamline)
    (cluster_streams : ClusterSet)
    (h : ∃ f ∈ fiber_streams, ∀ p ∈ flatten_clusters cluster_streams, p.1 ≠ f) :
    match_fibers_to_clusters fiber_streams cluster_streams =
      .error .valueError :=
  match_flat_error (flatten_clusters cluster_streams) fiber_streams h

/-- Witness for the amended C1 theorem at a concrete input. -/
theorem match_unmatched_fails_witness :
    match_fibers_to_clusters [S9] [("c1", [S1]), ("c2", [S2])] =
      .error .valueError :=
  match_unmatched_fails [S9] [("c1", [S1]), ("c2", [S2])]
    ⟨S9, by decide, by decide⟩

/-- Helper: the label of the first pointwise-identical flattened entry is
invariant under permutation of the flat list, provided no streamline occurs
under two different labels. -/
lemma find_first_label_of_perm {flat1 flat2 : List (Streamline × String)}
    (hperm : flat1.Perm flat2)
    (hcoh : ∀ p ∈ flat1, ∀ q ∈ flat1, p.1 = q.1 → p.2 = q.2)
    (f : Streamline) :
    (flat1.find? (fun p => p.1 == f)).map Prod.snd =
      (flat2.find? (fun p => p.1 == f)).map Prod.snd := by
  cases h1 : flat1.find? (fun p => p.1 == f) with
  | none =>
    have hn := List.find?_eq_none.mp h1
    have h2 : flat2.find? (fun p => p.1 == f) = none :=
      List.find?_eq_none.mpr (fun x hx => hn x (hperm.mem_iff.mpr hx))
    rw [h2]
  | some p =>
    have hp1 : p ∈ flat1 := List.mem_of_find?_eq_some h1
    have hpeq : p.1 = f := by simpa using List.find?_some h1
    cases h2 : flat2.find? (fun q => q.1 == f) with
    | none =>
      have := List.find?_eq_none.mp h2 p (hperm.mem_iff.mp hp1)
      simp [hpeq] at this
    | some q =>
      have hq1 : q ∈ flat1 := hperm.mem_iff.mpr (List.mem_of_find?_eq_some h2)
      have hqeq : q.1 = f := by simpa using List.find?_some h2
      have hlab : p.2 = q.2 := hcoh p hp1 q hq1 (hpeq.trans hqeq.symm)
      simp [hlab]

/-- Helper: the matching loop only observes, for each fiber, the label of
the first identical flattened entry; flat lists agreeing on that observable
give equal results. -/
lemma match_flat_congr {flat1 flat2 : List (Streamline × String)}
    (hlab : ∀ f : Streamline,
      (flat1.find? (fun p => p.1 == f)).map Prod.snd =
        (flat2.find? (fun p => p.1 == f)).map Prod.snd) :
    ∀ fibers, match_flat flat1 fibers = match_flat flat2 fibers := by
  intro fibers
  induction fibers with
  | nil => rfl
  | cons g rest ih =>
    have h := hlab g
    cases h1 : flat1.find? (fun p => p.1 == g) with
    | none =>
      rw [h1] at h
      cases h2 : flat2.find? (fun p => p.1 == g) with
      | none => simp only [match_flat, h1, h2]
      | some q => rw [h2] at h; simp at h
    | some p =>
      rw [h1] at h
      cases h2 : flat2.find? (fun p => p.1 == g) with
      | none => rw [h2] at h; simp at h
      | some q =>
        rw [h2] at h
        have hpq : p.2 = q.2 := by simpa using h
        simp only [match_flat, h1, h2, ih, hpq]

/-- C2 counterexample: the same streamline S1 listed under both c1 and c2;
the two iteration orders of this dict flatten to different parallel arrays
and give S1 different labels, so matching is not independent of the
flattening order in general. -/
theorem match_order_dependent_duplicate :
    ([("c1", [S1]), ("c2", [S1])] : ClusterSet).Perm
      [("c2", [S1]), ("c1", [S1])] ∧
    match_fibers_to_clusters [S1] [("c1", [S1]), ("c2", [S1])] = .ok ["c1"] ∧
    match_fibers_to_clusters [S1] [("c2", [S1]), ("c1", [S1])] = .ok ["c2"] := by
  exact ⟨by decide, rfl, rfl⟩

/-- C2 (amended): flattening-order independence holds under the partition
assumption that no streamline occurs pointwise-identically under two
different cluster labels: if two cluster sets are permutations of one
another (two `iteritems` orders of the same dict) and the flattened pairs
never give one geometry two labels, matching agrees. -/
theorem match_order_independent (fibers : List Streamline)
    (cs1 cs2 : ClusterSet) (hperm : cs1.Perm cs2)
    (hcoh : ∀ p ∈ flatten_clusters cs1, ∀ q ∈ flatten_clusters cs1,
      p.1 = q.1 → p.2 = q.2) :
    match_fibers_to_clusters fibers cs1 = match_fibers_to_clusters fibers cs2 := by
  have hflat : (flatten_clusters cs1).Perm (flatten_clusters cs2) :=
    hperm.flatMap_right _
  exact match_flat_congr (fun f => find_first_label_of_perm hflat hcoh f) fibers

/-- Witness for the amended C2 theorem at a concrete input: both iteration
orders of a duplicate-free two-cluster dict give the same matching. -/
theorem match_order_independent_witness :
    ([("c1", [S1]), ("c2", [S2])] : ClusterSet).Perm
      [("c2", [S2]), ("c1", [S1])] ∧
    match_fibers_to_clusters [S1, S2] [("c1", [S1]), ("c2", [S2])] =
      match_fibers_to_clusters [S1, S2] [("c2", [S2]), ("c1", [S1])] :=
  ⟨by decide,
   match_order_independent [S1, S2] _ _ (by decide) (by decide)⟩

/-- Helper: the endpoint loop raises IndexError whenever some pair in the
remaining work list carries a zero-point streamline. -/
lemma ends_loop_hits_empty :
    ∀ (l : List (Streamline × String)) (acc : TractEnds),
      (∃ pr ∈ l, pr.1 = ([] : Streamline)) →
        ends_loop l acc = .error .indexError := by
  intro l
  induction l with
  | nil => rintro acc ⟨pr, hm, -⟩; cases hm
  | cons hd tl ih =>
    rintro acc ⟨pr, hm, hempty⟩
    match hd with
    | ([], t) => rfl
    | (p :: ps, t) =>
      rcases List.mem_cons.mp hm with rfl | hmem
      · cases hempty
      · exact ih _ ⟨pr, hmem, hempty⟩

/-- Helper: an element of the left list of a zip with an equally long right
list appears in the zip with some partner. -/
lemma empty_mem_zip :
    ∀ (l₁ : List Streamline) (l₂ : List String), l₁.length = l₂.length →
      ([] : Streamline) ∈ l₁ →
        ∃ t, (([] : Streamline), t) ∈ l₁.zip l₂ := by
  intro l₁
  induction l₁ with
  | nil => intro l₂ _ hmem; cases hmem
  | cons a l ih =>
    intro l₂ hlen hmem
    cases l₂ with
    | nil => simp at hlen
    | cons b l₂ =>
      rcases List.mem_cons.mp hmem with h | h
      · exact ⟨b, by simp [List.zip, ← h]⟩
      · obtain ⟨t, ht⟩ := ih l₂ (by simpa using hlen) h
        exact ⟨t, List.mem_cons_of_mem _ ht⟩

/-- C6 counterexample: a zero-point streamline with matching label count is
not rejected by a precondition check; it raises IndexError during
extraction, a different error from the assert's AssertionError. -/
theorem empty_stream_index_error :
    get_stream_ends [([] : Streamline)] ["t"] = .error .indexError ∧
    EndsErr.indexError ≠ EndsErr.assertionError := by
  exact ⟨rfl, by decide⟩

/-- C6 (amended): a length mismatch is rejected by the assert before the
loop (AssertionError); with equal lengths, a zero-point streamline is not
pre-checked — it raises IndexError when the loop reaches it.  Either way
the call fails and no TractEndpoints value is returned. -/
theorem stream_ends_rejects (streamlines : List Streamline)
    (tractMap : List String) :
    (tractMap.length ≠ streamlines.length →
      get_stream_ends streamlines tractMap = .error .assertionError) ∧
    (tractMap.length = streamlines.length →
      ([] : Streamline) ∈ streamlines →
        get_stream_ends streamlines tractMap = .error .indexError) := by
  constructor
  · intro hne
    simp [get_stream_ends, hne]
  · intro hlen hmem
    obtain ⟨t, ht⟩ := empty_mem_zip streamlines tractMap hlen.symm hmem
    simp only [get_stream_ends, if_pos hlen]
    exact ends_loop_hits_empty _ _ ⟨([], t), ht, rfl⟩

/-- Witness for the amended C6 theorem: both failure branches at concrete
inputs. -/
theorem stream_ends_rejects_witness :
    get_stream_ends [S1] [] = .error .assertionError ∧
    get_stream_ends [[], S1] ["t", "u"] = .error .indexError :=
  ⟨(stream_ends_rejects [S1] []).1 (by decide),
   (stream_ends_rejects [[], S1] ["t", "u"]).2 (by decide) (by decide)⟩

/-- Balanced endpoint structure: every tract's starts and ends lists have
equal length. -/
def Balanced (te : TractEnds) : Prop :=
  ∀ kv ∈ te, kv.2.1.length = kv.2.2.length

/-- Helper: appending one start and one end point for a tract preserves the
balance of the endpoint structure. -/
lemma balanced_add_end (t : String) (s e : Point) :
    ∀ te, Balanced te → Balanced (add_end t s e te) := by
  intro te
  induction te with
  | nil =>
    intro _ kv hkv
    rcases List.mem_cons.mp hkv with rfl | h
    · rfl
    · cases h
  | cons hd tl ih =>
    intro hb kv hkv
    match hd with
    | (k, (ss, es)) =>
      have hbhd : ss.length = es.length := hb (k, (ss, es)) (List.mem_cons_self _ _)
      have hbtl : Balanced tl := fun kv h => hb kv (List.mem_cons_of_mem _ h)
      by_cases hk : k = t
      · simp only [add_end, if_pos hk] at hkv
        rcases List.mem_cons.mp hkv with rfl | h
        · simp [hbhd]
        · exact hbtl kv h
      · simp only [add_end, if_neg hk] at hkv
        rcases List.mem_cons.mp hkv with rfl | h
        · exact hbhd
        · exact ih hbtl kv h

/-- Helper: the endpoint loop preserves balance from its accumulator to its
successful result. -/
lemma ends_loop_balanced :
    ∀ (l : List (Streamline × String)) (acc te : TractEnds),
      Balanced acc → ends_loop l acc = .ok te → Balanced te := by
  intro l
  induction l with
  | nil =>
    intro acc te hb h
    cases h
    exact hb
  | cons hd tl ih =>
    intro acc te hb h
    match hd, h with
    | (p :: ps, t), h =>
      exact ih _ te (balanced_add_end t p (ps.getLastD p) acc hb) h

/-- Helper: the coordinate transform maps each tract's starts and ends
lists pointwise, preserving their lengths. -/
lemma balanced_convert (f : Point → Point) (te : TractEnds)
    (hb : Balanced te) : Balanced (convert_mm_to_voxels f te) := by
  intro kv hkv
  simp only [convert_mm_to_voxels, List.mem_map] at hkv
  obtain ⟨a, ha, rfl⟩ := hkv
  simpa using hb a ha

/-- C7: every TractEndpoints value produced by `get_stream_ends` has
equal-length starts and ends sequences for every tract, and this still
holds after `convert_mm_to_voxels` is applied to it. -/
theorem endpoints_balanced (streamlines : List Streamline)
    (tractMap : List String) (te : TractEnds) (f : Point → Point)
    (h : get_stream_ends streamlines tractMap = .ok te) :
    Balanced te ∧ Balanced (convert_mm_to_voxels f te) := by
  have hb : Balanced te := by
    unfold get_stream_ends at h
    split at h
    · exact ends_loop_balanced _ [] te (fun kv hkv => by cases hkv) h
    · cases h
  exact ⟨hb, balanced_convert f te hb⟩

/-- Concrete endpoint table used to witness the C7 theorem. -/
def teW : TractEnds := [("t", ([(0, 0, 0)], [(1, 0, 0)]))]

/-- Witness for the C7 theorem at a concrete input. -/
theorem endpoints_balanced_witness :
    Balanced teW ∧ Balanced (convert_mm_to_voxels id teW) :=
  endpoints_balanced [S1] ["t"] teW id rfl

/-- C8: whenever the trajectory (.trk) representation of an asset exists,
the format resolver selects it, and processing a .trk file invokes neither
converter — the only step is streamline extraction. -/
theorem trk_resumable (fs : String → Bool) (anatFile outDir : Option String)
    (h : fs ".trk" = true) :
    get_most_advanced_file fs = some ".trk" ∧
    get_streams_from_file ".trk" anatFile outDir = .ok [Step.extractTrk] := by
  constructor
  · simp [get_most_advanced_file, h]
  · rfl

/-- Witness for the C8 theorem at a concrete file system. -/
theorem trk_resumable_witness :
    get_most_advanced_file (fun e => e == ".trk") = some ".trk" ∧
    get_streams_from_file ".trk" none none = .ok [Step.extractTrk] :=
  trk_resumable (fun e => e == ".trk") none none (by decide)

/-- Helper: the relabelling loop fails with a KeyError naming the first
label missing from the inverted index. -/
lemma map_labels_missing (cmap : String → Option String) :
    ∀ l : List String, (∃ c ∈ l, cmap c = none) →
      ∃ c, c ∈ l ∧ cmap c = none ∧ map_labels cmap l = .error c := by
  intro l
  induction l with
  | nil => rintro ⟨c, hc, -⟩; cases hc
  | cons a rest ih =>
    rintro ⟨c, hc, hnone⟩
    cases ha : cmap a with
    | none =>
      exact ⟨a, List.mem_cons_self a rest, ha, by simp [map_labels, ha]⟩
    | some t =>
      have hcr : c ∈ rest := by
        rcases List.mem_cons.mp hc with rfl | h
        · rw [ha] at hnone; cases hnone
        · exact h
      obtain ⟨c', hc', hn', he'⟩ := ih ⟨c, hcr, hnone⟩
      exact ⟨c', List.mem_cons_of_mem _ hc', hn',
        by simp [map_labels, ha, he', Except.map]⟩

/-- C9: if some cluster label has no owning tract in the inverted
cluster-to-tract index, `map_clusters_to_tracts` fails with a KeyError
naming the first such label, rather than skipping or ignoring it. -/
theorem unknown_cluster_fails (cluster_list : List String)
    (tract_map : TractMap)
    (h : ∃ c ∈ cluster_list, build_cluster_map tract_map c = none) :
    ∃ c, c ∈ cluster_list ∧ build_cluster_map tract_map c = none ∧
      map_clusters_to_tracts cluster_list tract_map = .error c :=
  map_labels_missing (build_cluster_map tract_map) cluster_list h

/-- Witness for the C9 theorem at a concrete input. -/
theorem unknown_cluster_fails_witness :
    ∃ c, c ∈ ["cX"] ∧ build_cluster_map [("A", [("c1", "f1")])] c = none ∧
      map_clusters_to_tracts ["cX"] [("A", [("c1", "f1")])] = .error c :=
  unknown_cluster_fails ["cX"] [("A", [("c1", "f1")])] ⟨"cX", by decide, by decide⟩

/-- C10: `map_clusters_to_tracts` mutates its input in place and returns
it: on every successful call, the returned reference is the very address
that was passed in, and the list at that address now holds the tract names
— the caller's original cluster-label contents at that address are
overwritten; no other heap cell changes. -/
theorem resolver_mutates_in_place (addr : Addr) (tract_map : TractMap)
    (h : Heap) (out : List String)
    (hok : map_labels (build_cluster_map tract_map) (h addr) = .ok out) :
    map_clusters_to_tracts_heap addr tract_map h =
      .ok (addr, fun a => if a = addr then out else h a) := by
  simp [map_clusters_to_tracts_heap, hok]

/-- Concrete heap used to witness the C10 theorem: address 0 holds the
caller's cluster-label list. -/
def heapW : Heap := fun a => if a = 0 then ["c1"] else []

/-- Witness for the C10 theorem at a concrete input: the call returns
reference 0 — the argument itself — whose contents are now the tract
names. -/
theorem resolver_mutates_in_place_witness :
    map_clusters_to_tracts_heap 0 [("A", [("c1", "f1")])] heapW =
      .ok (0, fun a => if a = 0 then ["A"] else heapW a) :=
  resolver_mutates_in_place 0 [("A", [("c1", "f1")])] heapW ["A"] rfl

end Tractmapper
